import Mathlib

/-!
Shallow embedding of the BurnsPrunerTelementary computational core
(src/main.py, src/logger.py, src/replay.py, src/engine_data.py) over
exact rationals, together with proofs about the embedded operations.

Numeric sensor readings, derived metrics and timestamps are modelled as
`ℚ`; a sensor value that may be null is an `Option ℚ`.  numpy's `np.std`
is a numeric library routine, so it enters the model as an explicit
function parameter `std : List ℚ → ℚ`; its defining quantity, the
population variance of the window, is embedded exactly as `popVar`.
-/

namespace Pruner

/-- One polled observation (`RawFrame`): each of the seven OBD readings is
nullable, `none` standing for `is_null()`. -/
structure RawFrame where
  rpm : Option ℚ
  speed : Option ℚ
  maf : Option ℚ
  coolant : Option ℚ
  load : Option ℚ
  fuel_trim : Option ℚ
  intake_temp : Option ℚ
deriving Repr, DecidableEq

/-- A frame with every reading null, for building concrete test frames. -/
def blankFrame : RawFrame :=
  ⟨none, none, none, none, none, none, none⟩

/-- The OBD connection boundary: `is_connected()` plus the frame the seven
`query` calls of one `process_data` invocation observe. -/
structure Conn where
  connected : Bool
  frame : RawFrame
deriving Repr, DecidableEq

/-- The column names of the persisted log format
(`DataLogger.headers` in src/logger.py). -/
inductive Col where
  | timestamp
  | rpm
  | speed
  | hp
  | torque
  | ve
  | fuel_rate
  | coolant
  | load
  | fuel_total
  | stability
  | temp_in
deriving Repr, DecidableEq, BEq

/-- The header row, in the order `DataLogger.headers` lists it. -/
def logHeaders : List Col :=
  [.timestamp, .rpm, .speed, .hp, .torque, .ve, .fuel_rate, .coolant,
   .load, .fuel_total, .stability, .temp_in]

/-- One parsed CSV data row as `csv.DictReader` yields it: column keyed
values. -/
abbrev Row : Type := List (Col × ℚ)

/-- `row.get(key, default)` followed by `float(...)` in src/replay.py. -/
def rowGet (r : Row) (c : Col) (d : ℚ) : ℚ :=
  match List.lookup c r with
  | some v => v
  | none => d

/-- The data row `DataLogger.log_sample` appends for one metrics list:
`[timestamp] + metrics` when the list has its 11 entries, otherwise the
fallback `[timestamp] + metrics + [25.0]` (src/logger.py lines 34-43). -/
def logRow (ts : ℚ) (metrics : List ℚ) : List ℚ :=
  if 11 ≤ metrics.length then ts :: metrics
  else ts :: (metrics ++ [25])

/-- `csv.DictReader` pairs each data row with the header row. -/
def readRow (vals : List ℚ) : Row :=
  logHeaders.zip vals

/-- The flat metrics list `TelemetryReplayer._tick` builds from one row
(src/replay.py lines 67-79). -/
def tickMetrics (r : Row) : List ℚ :=
  [rowGet r .rpm 0, rowGet r .speed 0, rowGet r .hp 0, rowGet r .torque 0,
   rowGet r .ve 0, rowGet r .fuel_rate 0, rowGet r .coolant 0,
   rowGet r .load 0, rowGet r .fuel_total 0, rowGet r .stability 0,
   rowGet r .temp_in 25]

/-- The keyed comparison record `TelemetryReplayer.ghost_step` sends to the
ghost callback (src/replay.py lines 22-33): ten key/value pairs, built in
the source's key order. -/
def ghostMetrics (r : Row) : List (Col × ℚ) :=
  [(.rpm, rowGet r .rpm 0), (.speed, rowGet r .speed 0),
   (.hp, rowGet r .hp 0), (.torque, rowGet r .torque 0),
   (.ve, rowGet r .ve 0), (.fuel_rate, rowGet r .fuel_rate 0),
   (.coolant, rowGet r .coolant 0), (.load, rowGet r .load 0),
   (.fuel_total, rowGet r .fuel_total 0),
   (.stability, rowGet r .stability 0)]

/-- The default `_tick` supplies for a column absent from a row: 25 for
`temp_in`, 0 for every other metric column. -/
def colDefault : Col → ℚ
  | .temp_in => 25
  | _ => 0

/-- `TelemetryReplayer` state: the loaded rows, the playback cursor
(`current_frame`), `is_playing`, and whether a `Clock.schedule_interval`
event is pending (`_event`). -/
structure ReplayerState where
  data : List Row
  current_frame : ℕ
  is_playing : Bool
  scheduled : Bool

/-- A replayer as `__init__` leaves it: no data, not playing, no event. -/
def idleReplayer : ReplayerState :=
  ⟨[], 0, false, false⟩

/-- `TelemetryReplayer.start_replay` (src/replay.py lines 47-61): `self.data`
is cleared, then the file is read inside `try`.  The second component
records whether an exception escapes to the caller: the `except` clause
only prints, so it is always `false`.  `none` stands for a file the `open`
/ parse step raises on (missing, unreadable or malformed). -/
def startReplay (file : Option (List Row)) (st : ReplayerState) :
    ReplayerState × Bool :=
  match file with
  | some rows => (⟨rows, 0, true, true⟩, false)
  | none => (⟨[], st.current_frame, st.is_playing, st.scheduled⟩, false)

/-- One `_tick` (src/replay.py lines 63-83): emit the row under the cursor
and advance, or `stop_replay` (clear `is_playing`, unschedule) at the end. -/
def tick (st : ReplayerState) : ReplayerState × Option (List ℚ) :=
  if h : st.current_frame < st.data.length then
    (⟨st.data, st.current_frame + 1, st.is_playing, st.scheduled⟩,
      some (tickMetrics (st.data.get ⟨st.current_frame, h⟩)))
  else
    (⟨st.data, st.current_frame, false, false⟩, none)

/-- `n` firings of the scheduled clock: `_tick` runs only while the event is
scheduled; the emitted metric lists are collected in order. -/
def runTicks : ReplayerState → ℕ → ReplayerState × List (List ℚ)
  | st, 0 => (st, [])
  | st, n + 1 =>
    if st.scheduled then
      let p := tick st
      let q := runTicks p.1 n
      (q.1, p.2.toList ++ q.2)
    else (st, [])

/-- Air density at an intake temperature
(src/main.py line 136): `1.225 * 288.15 / (273.15 + intake)`. -/
def airDensity (intake : ℚ) : ℚ :=
  1.225 * 288.15 / (273.15 + intake)

/-- Fuel rate in litres per hour (src/main.py line 145):
`maf * 3600 / (14.7 * 740)`. -/
def fuelRate (maf : ℚ) : ℚ :=
  maf * 3600 / (14.7 * 740)

/-- The volumetric efficiency the source computes for `rpm > 400`
(src/main.py lines 140-142), with the density as a parameter. -/
def veAtDensity (maf rpm disp d : ℚ) : ℚ :=
  maf / (rpm * (disp / 1000) * d / 120 * 1000) * 100

/-- Append one fuel-trim sample to the window and evict the oldest when the
window would exceed 40 entries (src/main.py lines 149-151). -/
def pushTrim (w : List ℚ) (t : ℚ) : List ℚ :=
  let w' := w ++ [t]
  if 40 < w'.length then w'.tail else w'

/-- The last `n` elements of a list. -/
def lastN (n : ℕ) (l : List ℚ) : List ℚ :=
  l.drop (l.length - n)

/-- Mean of a list of rationals. -/
def listMean (l : List ℚ) : ℚ :=
  l.sum / l.length

/-- The population variance — the mean of the squared deviations — of a
list; `np.std` of the trim window is its square root. -/
def popVar (l : List ℚ) : ℚ :=
  (l.map fun x => (x - listMean l) ^ 2).sum / l.length

/-- The rpm bin edges `np.arange(0, 7501, 250)` (src/main.py line 98):
31 edges. -/
def rpmBins : List ℚ :=
  (List.range 31).map fun i => 250 * i

/-- The load bin edges `np.arange(0, 101, 5)` (src/main.py line 99):
21 edges. -/
def loadBins : List ℚ :=
  (List.range 21).map fun i => 5 * i

/-- `np.digitize(x, bins)` for increasing `bins` with the default
`right=False`: the number of bin edges `≤ x`. -/
def digitize (x : ℚ) (bins : List ℚ) : ℕ :=
  bins.countP fun b => decide (b ≤ x)

/-- `r_idx = np.digitize(rpm, self.rpm_bins) - 1` (src/main.py line 165). -/
def rpmIdx (rpm : ℚ) : ℤ :=
  (digitize rpm rpmBins : ℤ) - 1

/-- `l_idx = np.digitize(load, self.load_bins) - 1` (src/main.py line 166). -/
def loadIdx (load : ℚ) : ℤ :=
  (digitize load loadBins : ℤ) - 1

/-- The guard `0 <= r_idx < len(self.rpm_bins) and 0 <= l_idx <
len(self.load_bins)` of src/main.py line 168. -/
def fuelMapInRange (load rpm : ℚ) : Prop :=
  0 ≤ rpmIdx rpm ∧ rpmIdx rpm < 31 ∧ 0 ≤ loadIdx load ∧ loadIdx load < 21

instance (load rpm : ℚ) : Decidable (fuelMapInRange load rpm) := by
  unfold fuelMapInRange; infer_instance

/-- The fuel-map learning step (src/main.py lines 164-170): when both bin
indices are in range, overwrite the one cell `[l_idx, r_idx]` with the
call's fuel rate; otherwise leave the map as it is. -/
def updateFuelMap (fm : Fin 21 → Fin 31 → ℚ) (load rpm fr : ℚ) :
    Fin 21 → Fin 31 → ℚ :=
  if fuelMapInRange load rpm then
    fun li ri =>
      if (li : ℤ) = loadIdx load ∧ (ri : ℤ) = rpmIdx rpm then fr
      else fm li ri
  else fm

/-- `TelemetryBrain` state (src/main.py lines 82-100): configuration,
accumulators, the trim window, the fuel map and the performance timer,
plus the rows handed to the logger. -/
structure Brain where
  displacement : ℚ
  cum_fuel : ℚ
  perf_running : Bool
  perf_start_time : Option ℚ
  leaderboard : List ℚ
  logging_active : Bool
  log : List (List ℚ)
  trim_window : List ℚ
  fuel_map : Fin 21 → Fin 31 → ℚ

/-- `TelemetryBrain.__init__` with a displacement in litres. -/
def initBrain (displacement : ℚ) : Brain :=
  { displacement := displacement
    cum_fuel := 0
    perf_running := false
    perf_start_time := none
    leaderboard := []
    logging_active := true
    log := []
    trim_window := []
    fuel_map := fun _ _ => 0 }

/-- `TelemetryBrain.process_data` (src/main.py lines 102-178).

`std` is numpy's standard-deviation routine, `now` the value `time.time()`
returns during the call.  An absent or unconnected connection returns the
literal `[0]*10` of line 108 untouched.  On a connected call, line 127
re-queries the intake temperature through `self.connection` — which
`__init__` set to `None` and nothing ever reassigns — whenever the first
intake query was not null, so such a call raises `AttributeError` before
any state is mutated: that is the `none` result.  When the intake reading
is null, the reported `temp_in` defaults to 25 while the `intake` used for
the density stays 0 like every other missing reading. -/
def processData (std : List ℚ → ℚ) (st : Brain) (conn : Option Conn)
    (now : ℚ) : Option (Brain × List ℚ) :=
  match conn with
  | none => some (st, List.replicate 10 0)
  | some c =>
    if c.connected = false then some (st, List.replicate 10 0)
    else if c.frame.intake_temp.isSome then none
    else
      let rpm := c.frame.rpm.getD 0
      let speed := c.frame.speed.getD 0
      let maf := c.frame.maf.getD 0
      let coolant := c.frame.coolant.getD 0
      let load := c.frame.load.getD 0
      let trim := c.frame.fuel_trim.getD 0
      let temp_in : ℚ := 25
      let hp := maf * 1.32
      let torque := if 500 < rpm then hp * 7127 / rpm else 0
      let density := airDensity 0
      let ve := if 400 < rpm then veAtDensity maf rpm st.displacement density
        else 0
      let fuel_rate := fuelRate maf
      let cum := st.cum_fuel + fuel_rate * 0.1 / 3600
      let window := pushTrim st.trim_window trim
      let stability := if 5 < window.length then std window else 0
      let startRun := st.perf_running = false ∧ 2 < speed ∧ speed < 8
      let finishRun := st.perf_running = true ∧ 100 ≤ speed
      let running : Bool :=
        if startRun then true else if finishRun then false else st.perf_running
      let startT := if startRun then some now else st.perf_start_time
      let lb :=
        if finishRun then
          ((st.leaderboard ++ [now - st.perf_start_time.getD 0]).insertionSort
            (· ≤ ·)).take 3
        else st.leaderboard
      let fm := updateFuelMap st.fuel_map load rpm fuel_rate
      let metrics :=
        [rpm, speed, hp, torque, ve, fuel_rate, coolant, load, cum,
         stability, temp_in]
      let lg :=
        if st.logging_active = true ∧ 0 < rpm then st.log ++ [logRow now metrics]
        else st.log
      some
        ({ st with
            cum_fuel := cum
            perf_running := running
            perf_start_time := startT
            leaderboard := lb
            log := lg
            trim_window := window
            fuel_map := fm }, metrics)

/-- One iteration of the background worker around `process_data`: a raised
exception is caught there and the brain's state survives unchanged. -/
def stepBrain (std : List ℚ → ℚ) (st : Brain) (inp : Option Conn × ℚ) :
    Brain :=
  match processData std st inp.1 inp.2 with
  | some p => p.1
  | none => st

/-- A sequence of background-worker iterations. -/
def runBrain (std : List ℚ → ℚ) (st : Brain)
    (inps : List (Option Conn × ℚ)) : Brain :=
  inps.foldl (stepBrain std) st

/-- An 11-field derived-metrics record, in the field order the metrics list
of src/main.py line 172 fixes. -/
structure DerivedMetrics where
  rpm : ℚ
  speed : ℚ
  hp : ℚ
  torque : ℚ
  ve_percent : ℚ
  fuel_rate_lph : ℚ
  coolant : ℚ
  load : ℚ
  cumulative_fuel_l : ℚ
  trim_stability : ℚ
  intake_temp : ℚ
deriving Repr, DecidableEq

/-- The record as the positional 11-entry list every consumer handles. -/
def DerivedMetrics.toList (m : DerivedMetrics) : List ℚ :=
  [m.rpm, m.speed, m.hp, m.torque, m.ve_percent, m.fuel_rate_lph,
   m.coolant, m.load, m.cumulative_fuel_l, m.trim_stability, m.intake_temp]

/-- `CarDoctor.diagnose` (src/main.py lines 45-79): the source first sets
the default advice, then walks the warmup / overheat / efficiency /
stability cascade, the cold branch escalating to the critical message when
`rpm > 3500`. -/
def diagnose (m : DerivedMetrics) : String × ℕ :=
  if m.coolant < 70 then
    if 3500 < m.rpm then ("⛔ CRITICAL: HIGH RPM ON COLD ENGINE!", 2)
    else ("⚠️ Engine Cold: Limit RPM < 3000", 1)
  else if 105 < m.coolant then ("⛔ OVERHEATING: Check Airflow / Coolant", 2)
  else if 80 < m.speed ∧ m.load < 30 ∧ 3000 < m.rpm then
    ("💡 Shift Up to Save Fuel", 0)
  else if m.speed < 5 ∧ 3 < m.trim_stability then
    ("⚠️ Rough Idle Detected: Check Spark/Fuel", 1)
  else ("System Normal", 0)

/-- The spec's six diagnostic rules as an ordered `(predicate, verdict)`
list (§4.2 of the spec), rule 6 being the catch-all. -/
def specRules : List ((DerivedMetrics → Bool) × String × ℕ) :=
  [(fun m => decide (m.coolant < 70 ∧ 3500 < m.rpm),
      ("⛔ CRITICAL: HIGH RPM ON COLD ENGINE!", 2)),
   (fun m => decide (m.coolant < 70), ("⚠️ Engine Cold: Limit RPM < 3000", 1)),
   (fun m => decide (105 < m.coolant),
      ("⛔ OVERHEATING: Check Airflow / Coolant", 2)),
   (fun m => decide (80 < m.speed ∧ m.load < 30 ∧ 3000 < m.rpm),
      ("💡 Shift Up to Save Fuel", 0)),
   (fun m => decide (m.speed < 5 ∧ 3 < m.trim_stability),
      ("⚠️ Rough Idle Detected: Check Spark/Fuel", 1))]

/-- First-match evaluation of an ordered rule list, the catch-all verdict
being rule 6's "System Normal" with severity 0. -/
def firstMatch (m : DerivedMetrics) :
    List ((DerivedMetrics → Bool) × String × ℕ) → String × ℕ
  | [] => ("System Normal", 0)
  | (p, v) :: rest => if p m then v else firstMatch m rest

/-- The diagnostic engine as the spec words it: the ordered rule table
evaluated first match wins. -/
def diagnoseSpec (m : DerivedMetrics) : String × ℕ :=
  firstMatch m specRules

/-- `calculate_extra_metrics` (src/engine_data.py): presentation-only
ratios from one metrics record. -/
def calculateExtraMetrics (m : DerivedMetrics) : ℚ × ℚ :=
  (if 5 < m.speed ∧ 0 < m.fuel_rate_lph then m.fuel_rate_lph / m.speed * 100
    else 0,
   m.hp / 1.5)

/-- A trivial stand-in for numpy's standard-deviation routine, for
concrete runs whose stability value is irrelevant. -/
def stdZero : List ℚ → ℚ := fun _ => 0

/-- A sample record with eleven distinct field values. -/
def sampleMetrics : DerivedMetrics :=
  ⟨1, 2, 3, 4, 5, 6, 7, 8, 9, 10, 11⟩

/-- The sample record as one parsed row of a persisted log. -/
def sampleRow : Row :=
  readRow (logRow 99 sampleMetrics.toList)

/-- A frame carrying only a speed reading. -/
def speedFrame (q : ℚ) : RawFrame :=
  { blankFrame with speed := some q }

/-- A connected frame with rpm 3000 and maf 50, the intake reading null. -/
def densityFrame : RawFrame :=
  { blankFrame with rpm := some 3000, maf := some 50 }

/-- A connected frame whose intake reading is present (and maf 10): the
input on which line 127 of src/main.py queries through the never-assigned
`self.connection`. -/
def intakeFrame : RawFrame :=
  { blankFrame with maf := some 10, intake_temp := some 25 }

/-- The engine run the claims fold over: `process_data` on a sequence of
connected frames, each paired with its `time.time()` value, starting from
a fresh `TelemetryBrain`. -/
def runFrames (std : List ℚ → ℚ) (disp : ℚ) (inps : List (RawFrame × ℚ)) :
    Brain :=
  runBrain std (initBrain disp) (inps.map fun p => (some ⟨true, p.1⟩, p.2))

end Pruner

/-! ## Supporting lemmas -/

namespace Pruner

/-- Writing one record through the log format and parsing it back through
`_tick` is the identity on the eleven metric fields. -/
lemma tick_of_logged (ts : ℚ) (d : DerivedMetrics) :
    tickMetrics (readRow (logRow ts d.toList)) = d.toList := rfl

/-- With no pending clock event, no tick ever runs. -/
lemma runTicks_unscheduled (st : ReplayerState) (h : st.scheduled = false) :
    ∀ n, runTicks st n = (st, []) := by
  intro n
  cases n with
  | zero => rfl
  | succ n => simp [runTicks, h]

/-- A scheduled replayer emits, over `n` ticks, exactly the parses of the
next `n` rows after the cursor, in order. -/
lemma runTicks_emits : ∀ (n : ℕ) (st : ReplayerState), st.scheduled = true →
    (runTicks st n).2 =
      ((st.data.drop st.current_frame).take n).map tickMetrics := by
  intro n
  induction n with
  | zero => intro st h; simp [runTicks]
  | succ n ih =>
    intro st h
    by_cases hlt : st.current_frame < st.data.length
    · have hdrop : st.data.drop st.current_frame =
          st.data.get ⟨st.current_frame, hlt⟩ ::
            st.data.drop (st.current_frame + 1) := by
        rw [List.drop_eq_getElem_cons hlt]
        rfl
      have := ih ⟨st.data, st.current_frame + 1, st.is_playing, st.scheduled⟩ h
      simp only [runTicks, if_pos h, tick, dif_pos hlt]
      simp only [Option.toList_some, List.cons_append, List.nil_append]
      rw [this, hdrop]
      rfl
    · have hnil : st.data.drop st.current_frame = [] :=
        List.drop_eq_nil_of_le (le_of_not_lt hlt)
      simp only [runTicks, if_pos h, tick, dif_neg hlt]
      rw [runTicks_unscheduled ⟨st.data, st.current_frame, false, false⟩ rfl n]
      simp [hnil]

/-- The trim window never grows past 40 entries in one push. -/
lemma pushTrim_length_le (w : List ℚ) (t : ℚ) (h : w.length ≤ 40) :
    (pushTrim w t).length ≤ 40 := by
  unfold pushTrim
  by_cases h40 : 40 < (w ++ [t]).length
  · simp only [if_pos h40]
    simp at h40 ⊢
    omega
  · simp only [if_neg h40]
    simp at h40 ⊢
    omega

lemma lastN_of_le (l : List ℚ) (n : ℕ) (h : l.length ≤ n) : lastN n l = l := by
  unfold lastN
  rw [Nat.sub_eq_zero_of_le h, List.drop_zero]

lemma lastN_cons (n : ℕ) (x : ℚ) (l : List ℚ) (h : n ≤ l.length) :
    lastN n (x :: l) = lastN n l := by
  unfold lastN
  have : (x :: l).length - n = (l.length - n) + 1 := by
    simp only [List.length_cons]
    omega
  rw [this, List.drop_succ_cons]

/-- Folding pushes over a window of at most 40 entries leaves exactly the
last 40 of everything appended. -/
lemma foldl_pushTrim (ts : List ℚ) : ∀ w : List ℚ, w.length ≤ 40 →
    ts.foldl pushTrim w = lastN 40 (w ++ ts) := by
  induction ts with
  | nil =>
    intro w h
    simp [lastN_of_le _ _ (by simpa using h)]
  | cons t ts ih =>
    intro w h
    rw [List.foldl_cons, ih (pushTrim w t) (pushTrim_length_le w t h)]
    rcases Nat.lt_or_ge w.length 40 with hlt | hge
    · have : pushTrim w t = w ++ [t] := by
        unfold pushTrim
        rw [if_neg]
        simp
        omega
      rw [this, List.append_assoc]
      rfl
    · have hw40 : w.length = 40 := le_antisymm h hge
      have hne : w ≠ [] := by
        intro hnil
        rw [hnil] at hw40
        simp at hw40
      have hp : pushTrim w t = w.tail ++ [t] := by
        unfold pushTrim
        rw [if_pos (by simp [hw40])]
        rw [List.tail_append_of_ne_nil hne]
      rw [hp, List.append_assoc]
      have hcons : w ++ t :: ts = w.head hne :: (w.tail ++ t :: ts) := by
        rw [← List.cons_append, List.head_cons_tail]
      rw [hcons, lastN_cons]
      · rfl
      · simp
        have : w.tail.length = 39 := by
          rw [List.length_tail, hw40]
        omega

/-- One completed worker step (connected, intake reading null) pushes the
frame's fuel trim onto the window. -/
lemma stepBrain_window (std : List ℚ → ℚ) (st : Brain) (f : RawFrame)
    (now : ℚ) (hi : f.intake_temp = none) :
    (stepBrain std st (some ⟨true, f⟩, now)).trim_window =
      pushTrim st.trim_window (f.fuel_trim.getD 0) := by
  simp [stepBrain, processData, hi]

/-- Across a run of completed steps, the window is the pushTrim fold of the
frames' trims. -/
lemma runBrain_window (std : List ℚ → ℚ) :
    ∀ (inps : List (RawFrame × ℚ)) (st : Brain),
      (∀ p ∈ inps, p.1.intake_temp = none) →
      (runBrain std st (inps.map fun p => (some ⟨true, p.1⟩, p.2))).trim_window
        = (inps.map fun p => p.1.fuel_trim.getD 0).foldl pushTrim
            st.trim_window := by
  intro inps
  induction inps with
  | nil => intro st _; rfl
  | cons p rest ih =>
    intro st h
    simp only [List.map_cons, List.foldl_cons]
    unfold runBrain
    rw [List.foldl_cons]
    have h1 := ih (stepBrain std st (some ⟨true, p.1⟩, p.2))
      (fun q hq => h q (List.mem_cons_of_mem p hq))
    unfold runBrain at h1
    rw [h1, stepBrain_window std st p.1 p.2 (h p (List.mem_cons_self p rest))]

/-- Sum of squared deviations from any centre, expanded. -/
lemma sum_sq_dev (c : ℚ) : ∀ l : List ℚ,
    (l.map fun x => (x - c) ^ 2).sum =
      (l.map fun x => x ^ 2).sum - 2 * c * l.sum + l.length * c ^ 2 := by
  intro l
  induction l with
  | nil => simp
  | cons x xs ih =>
    simp only [List.map_cons, List.sum_cons, List.length_cons, ih]
    push_cast
    ring

/-- The embedded population variance agrees with the textbook alternative
form: mean of the squares minus the square of the mean. -/
lemma popVar_alt (w : List ℚ) :
    popVar w = (w.map fun x => x ^ 2).sum / w.length - listMean w ^ 2 := by
  rcases eq_or_ne w [] with h | h
  · subst h
    simp [popVar, listMean]
  · have hn : ((w.length : ℚ)) ≠ 0 := by
      exact_mod_cast fun h0 => h (List.length_eq_zero.mp h0)
    rw [popVar, sum_sq_dev, listMean]
    field_simp
    ring

/-- On a list sorted ascending, `countP (· ≤ x)` splits the list: the first
`countP` elements are `≤ x` and everything after is `> x`. -/
lemma countP_sorted_split (x : ℚ) : ∀ l : List ℚ, l.Sorted (· ≤ ·) →
    (∀ b ∈ l.take (l.countP fun b => decide (b ≤ x)), b ≤ x) ∧
    (∀ b ∈ l.drop (l.countP fun b => decide (b ≤ x)), x < b) := by
  intro l
  induction l with
  | nil => intro _; simp
  | cons a t ih =>
    intro hs
    rw [List.sorted_cons] at hs
    obtain ⟨ha, ht⟩ := hs
    obtain ⟨ih1, ih2⟩ := ih ht
    by_cases hax : a ≤ x
    · rw [List.countP_cons_of_pos _ _ (by simpa using hax)]
      constructor
      · intro b hb
        rw [List.take_succ_cons] at hb
        rcases List.mem_cons.mp hb with hb | hb
        · exact hb ▸ hax
        · exact ih1 b hb
      · intro b hb
        rw [List.drop_succ_cons] at hb
        exact ih2 b hb
    · have h0 : t.countP (fun b => decide (b ≤ x)) = 0 := by
        rw [List.countP_eq_zero]
        intro b hb
        simp only [decide_eq_true_eq]
        intro hbx
        exact hax (le_trans (ha b hb) hbx)
      rw [List.countP_cons_of_neg _ _ (by simpa using hax), h0]
      constructor
      · intro b hb
        simp at hb
      · intro b hb
        rcases List.mem_cons.mp hb with hb | hb
        · exact hb ▸ lt_of_not_le hax
        · exact lt_of_lt_of_le (lt_of_not_le hax) (ha b hb)

lemma digitize_le_length (x : ℚ) (bins : List ℚ) :
    digitize x bins ≤ bins.length :=
  List.countP_le_length _

/-- For sorted bins, `digitize - 1` picks the largest bin edge `≤ x`: the
edge at that index is `≤ x` and every later edge exceeds `x`. -/
lemma digitize_bucket (x : ℚ) (bins : List ℚ) (hs : bins.Sorted (· ≤ ·))
    (h1 : 1 ≤ digitize x bins) :
    bins.getD (digitize x bins - 1) 0 ≤ x ∧
    ∀ b ∈ bins.drop (digitize x bins), x < b := by
  have hsplit : (∀ b ∈ bins.take (digitize x bins), b ≤ x) ∧
      (∀ b ∈ bins.drop (digitize x bins), x < b) :=
    countP_sorted_split x bins hs
  obtain ⟨hle, hgt⟩ := hsplit
  have hk : digitize x bins ≤ bins.length := digitize_le_length x bins
  have hidx : digitize x bins - 1 < bins.length := by omega
  refine ⟨?_, hgt⟩
  rw [List.getD_eq_getElem bins 0 hidx]
  apply hle
  have htk : digitize x bins - 1 < (bins.take (digitize x bins)).length := by
    rw [List.length_take]
    omega
  have heq := @List.getElem_take ℚ bins (digitize x bins)
    (digitize x bins - 1) htk
  rw [← heq]
  exact List.getElem_mem _

lemma rpmBins_sorted : rpmBins.Sorted (· ≤ ·) := by
  unfold rpmBins
  refine List.Pairwise.map (fun i : ℕ => (250 : ℚ) * i) ?_
    (List.pairwise_lt_range 31)
  intro a b hab
  have h : (a : ℚ) ≤ (b : ℚ) := by exact_mod_cast hab.le
  simp only []
  nlinarith

lemma loadBins_sorted : loadBins.Sorted (· ≤ ·) := by
  unfold loadBins
  refine List.Pairwise.map (fun i : ℕ => (5 : ℚ) * i) ?_
    (List.pairwise_lt_range 21)
  intro a b hab
  have h : (a : ℚ) ≤ (b : ℚ) := by exact_mod_cast hab.le
  simp only []
  nlinarith

/-- One step adds a nonnegative fuel increment when the maf reading is
nonnegative or absent. -/
lemma fuelRate_incr_nonneg (maf : ℚ) (h : 0 ≤ maf) :
    0 ≤ fuelRate maf * 0.1 / 3600 := by
  unfold fuelRate
  apply div_nonneg _ (by norm_num)
  apply mul_nonneg _ (by norm_num)
  apply div_nonneg (mul_nonneg h (by norm_num)) (by norm_num)

lemma stepBrain_cum_fuel_le (std : List ℚ → ℚ) (st : Brain)
    (inp : Option Conn × ℚ)
    (h : ∀ c, inp.1 = some c → 0 ≤ c.frame.maf.getD 0) :
    st.cum_fuel ≤ (stepBrain std st inp).cum_fuel := by
  obtain ⟨conn, now⟩ := inp
  match conn with
  | none => simp [stepBrain, processData]
  | some c =>
    rcases hcc : c.connected with _ | _
    · simp [stepBrain, processData, hcc]
    · rcases hii : c.frame.intake_temp with _ | v
      · have hmaf := h c rfl
        have hnn := fuelRate_incr_nonneg (c.frame.maf.getD 0) hmaf
        simp [stepBrain, processData, hcc, hii]
        linarith
      · simp [stepBrain, processData, hcc, hii]

lemma runBrain_cum_fuel_mono (std : List ℚ → ℚ) :
    ∀ (inps : List (Option Conn × ℚ)) (st : Brain),
      (∀ p ∈ inps, ∀ c, p.1 = some c → 0 ≤ c.frame.maf.getD 0) →
      st.cum_fuel ≤ (runBrain std st inps).cum_fuel := by
  intro inps
  induction inps with
  | nil => intro st _; exact le_refl _
  | cons p rest ih =>
    intro st h
    unfold runBrain
    rw [List.foldl_cons]
    calc st.cum_fuel
        ≤ (stepBrain std st p).cum_fuel :=
          stepBrain_cum_fuel_le std st p (h p (List.mem_cons_self p rest))
      _ ≤ _ := ih (stepBrain std st p)
            (fun q hq => h q (List.mem_cons_of_mem p hq))

end Pruner

/-! ## Claim theorems -/

namespace Pruner

/-- C1: when the connection is absent or reports not connected,
`process_data` returns without failing, but its return is the literal
`[0]*10` — a ten-entry all-zero list, one field short of the 11-field
`DerivedMetrics` record the spec and every consumer fix, so it can equal
no record's positional list. -/
theorem process_data_disconnected_ten_zeros (std : List ℚ → ℚ) (st : Brain)
    (now : ℚ) (f : RawFrame) :
    processData std st none now = some (st, List.replicate 10 0) ∧
    processData std st (some ⟨false, f⟩) now = some (st, List.replicate 10 0) ∧
    (List.replicate 10 (0 : ℚ)).length = 10 ∧
    ∀ d : DerivedMetrics, List.replicate 10 (0 : ℚ) ≠ d.toList := by
  refine ⟨rfl, rfl, rfl, ?_⟩
  intro d h
  have := congrArg List.length h
  simp [DerivedMetrics.toList] at this

/-- C2 counterexample: on a connected frame whose intake reading is absent
(rpm 3000, maf 50), the volumetric efficiency `process_data` emits is the
one computed with the air density at intake 0, and that value differs from
the claim's density at the default 25 — so the density is not computed
with intake defaulted to 25. -/
theorem intake_absent_density_cex :
    (processData stdZero (initBrain 2) (some ⟨true, densityFrame⟩) 0).map
        (fun p => p.2.getD 4 0) =
      some (veAtDensity 50 3000 2 (airDensity 0)) ∧
    veAtDensity 50 3000 2 (airDensity 0) ≠
      veAtDensity 50 3000 2 (airDensity 25) ∧
    airDensity 0 ≠ airDensity 25 := by
  refine ⟨?_, ?_, ?_⟩
  · simp [processData, densityFrame, blankFrame, initBrain, stdZero]
    norm_num [veAtDensity, airDensity]
  · norm_num [veAtDensity, airDensity]
  · norm_num [airDensity]

/-- C2 amended: for every frame in which the intake-temperature reading is
absent, `process_data` completes, the air density feeding volumetric
efficiency is computed with intake defaulted to 0 (like every other
missing reading), and only the reported `intake_temp` field of the record
defaults to 25. -/
theorem intake_absent_density_amended (std : List ℚ → ℚ) (st : Brain)
    (c : Conn) (now : ℚ) (hc : c.connected = true)
    (hi : c.frame.intake_temp = none) :
    (processData std st (some c) now).isSome = true ∧
    (processData std st (some c) now).map (fun p => p.2.getD 4 0) =
      some (if 400 < c.frame.rpm.getD 0 then
          veAtDensity (c.frame.maf.getD 0) (c.frame.rpm.getD 0)
            st.displacement (airDensity 0)
        else 0) ∧
    (processData std st (some c) now).map (fun p => p.2.getD 10 0) =
      some 25 := by
  refine ⟨?_, ?_, ?_⟩ <;> simp [processData, hc, hi]

/-- C2 witness: the amended statement at the concrete connected frame with
rpm 3000, maf 50 and a null intake reading. -/
theorem intake_absent_density_amended_witness :
    (processData stdZero (initBrain 2) (some ⟨true, densityFrame⟩) 0).isSome
        = true ∧
    (processData stdZero (initBrain 2) (some ⟨true, densityFrame⟩) 0).map
        (fun p => p.2.getD 4 0) =
      some (if 400 < (Conn.mk true densityFrame).frame.rpm.getD 0 then
          veAtDensity ((Conn.mk true densityFrame).frame.maf.getD 0)
            ((Conn.mk true densityFrame).frame.rpm.getD 0)
            (initBrain 2).displacement (airDensity 0)
        else 0) ∧
    (processData stdZero (initBrain 2) (some ⟨true, densityFrame⟩) 0).map
        (fun p => p.2.getD 10 0) = some 25 :=
  intake_absent_density_amended stdZero (initBrain 2) ⟨true, densityFrame⟩ 0
    rfl rfl

/-- C3 counterexample: `start_replay` on an unreadable file lets no
exception reach the caller (the first component of the model records a
propagated exception and is `false`), so no distinct `ReplayLoadError` is
surfaced; replay does not start and five subsequent clock firings emit
nothing. -/
theorem replay_load_failure_swallowed_cex :
    startReplay none idleReplayer = (⟨[], 0, false, false⟩, false) ∧
    (runTicks (startReplay none idleReplayer).1 5).2 = [] := by
  constructor
  · rfl
  · rfl

/-- C3 amended: for every unreadable or malformed log file, `start_replay`
catches the load error internally and surfaces nothing to the caller;
starting from an idle replayer, playback does not start and no sink
emission ever occurs. -/
theorem replay_load_failure_amended (st : ReplayerState)
    (h1 : st.is_playing = false) (h2 : st.scheduled = false) :
    (startReplay none st).2 = false ∧
    (startReplay none st).1.is_playing = false ∧
    ∀ n, (runTicks (startReplay none st).1 n).2 = [] := by
  refine ⟨rfl, h1, ?_⟩
  intro n
  have h' : (startReplay none st).1.scheduled = false := h2
  rw [runTicks_unscheduled (startReplay none st).1 h' n]

/-- C3 witness: the amended statement at the fresh idle replayer. -/
theorem replay_load_failure_amended_witness :
    (startReplay none idleReplayer).2 = false ∧
    (startReplay none idleReplayer).1.is_playing = false ∧
    ∀ n, (runTicks (startReplay none idleReplayer).1 n).2 = [] :=
  replay_load_failure_amended idleReplayer rfl rfl

/-- C4 counterexample: starting a fresh brain on the speed sequence 50 then
5 leaves the 0→100 timer running, although the previous speed 50 is not
`≤ 2`: the code's start condition is a plain in-band test, not a rising
edge. -/
theorem perf_timer_no_rising_edge_cex :
    (runBrain stdZero (initBrain 2)
        [(some ⟨true, speedFrame 50⟩, 0),
         (some ⟨true, speedFrame 5⟩, 1)]).perf_running = true ∧
    ¬ ((50 : ℚ) ≤ 2) := by
  constructor
  · decide
  · norm_num

/-- C4 amended: on every completed step (connected, intake reading absent),
a run begins exactly when the timer is not already running and the current
speed lies strictly inside the 2–8 band, regardless of the previous speed;
a running timer completes exactly when speed reaches at least 100. -/
theorem perf_timer_band_start_amended (std : List ℚ → ℚ) (st : Brain)
    (c : Conn) (now : ℚ) (hc : c.connected = true)
    (hi : c.frame.intake_temp = none) :
    (st.perf_running = false →
      ((processData std st (some c) now).map (fun p => p.1.perf_running) =
          some true ↔
        (2 < c.frame.speed.getD 0 ∧ c.frame.speed.getD 0 < 8))) ∧
    (st.perf_running = true →
      ((processData std st (some c) now).map (fun p => p.1.perf_running) =
          some false ↔
        100 ≤ c.frame.speed.getD 0)) := by
  constructor
  · intro hr
    by_cases hs : 2 < c.frame.speed.getD 0 ∧ c.frame.speed.getD 0 < 8 <;>
      simp [processData, hc, hi, hr, hs]
  · intro hr
    by_cases hs : 100 ≤ c.frame.speed.getD 0 <;>
      simp [processData, hc, hi, hr, hs]

/-- C4 witness: the amended statement at a fresh brain and a connected
frame with speed 5. -/
theorem perf_timer_band_start_amended_witness :
    ((initBrain 2).perf_running = false →
      ((processData stdZero (initBrain 2) (some ⟨true, speedFrame 5⟩) 0).map
          (fun p => p.1.perf_running) = some true ↔
        (2 < (Conn.mk true (speedFrame 5)).frame.speed.getD 0 ∧
          (Conn.mk true (speedFrame 5)).frame.speed.getD 0 < 8))) ∧
    ((initBrain 2).perf_running = true →
      ((processData stdZero (initBrain 2) (some ⟨true, speedFrame 5⟩) 0).map
          (fun p => p.1.perf_running) = some false ↔
        100 ≤ (Conn.mk true (speedFrame 5)).frame.speed.getD 0)) :=
  perf_timer_band_start_amended stdZero (initBrain 2) ⟨true, speedFrame 5⟩ 0
    rfl rfl

/-- C5: `diagnose` equals first-match evaluation of the spec's six rules in
their fixed order; a record with coolant 60 and rpm 4000 gets severity 2
with the cold-high-rpm message, a record with coolant 90, speed 90,
load 20, rpm 3200 (any stability ≤ 3) gets severity 0 with the shift-up
advisory, and the severity is always 0, 1 or 2. -/
theorem diagnose_rule_order :
    (∀ m : DerivedMetrics, diagnose m = diagnoseSpec m) ∧
    (∀ m : DerivedMetrics, m.coolant = 60 → m.rpm = 4000 →
      diagnose m = ("⛔ CRITICAL: HIGH RPM ON COLD ENGINE!", 2)) ∧
    (∀ m : DerivedMetrics, m.coolant = 90 → m.speed = 90 → m.load = 20 →
      m.rpm = 3200 → m.trim_stability ≤ 3 →
      diagnose m = ("💡 Shift Up to Save Fuel", 0)) ∧
    (∀ m : DerivedMetrics,
      (diagnose m).2 = 0 ∨ (diagnose m).2 = 1 ∨ (diagnose m).2 = 2) := by
  refine ⟨?_, ?_, ?_, ?_⟩
  · intro m
    by_cases h1 : m.coolant < 70 <;> by_cases h2 : 3500 < m.rpm <;>
      by_cases h3 : 105 < m.coolant <;>
      by_cases h4 : 80 < m.speed ∧ m.load < 30 ∧ 3000 < m.rpm <;>
      by_cases h5 : m.speed < 5 ∧ 3 < m.trim_stability <;>
      simp [diagnose, diagnoseSpec, firstMatch, specRules, h1, h2, h3, h4, h5]
  · intro m h1 h2
    norm_num [diagnose, h1, h2]
  · intro m h1 h2 h3 h4 h5
    norm_num [diagnose, h1, h2, h3, h4]
  · intro m
    unfold diagnose
    split_ifs <;> simp

/-- C6: writing any finite sequence of 11-field records through the
logger's row format and replaying the resulting file emits, tick by tick,
exactly the original numeric sequence in the original order
(field-for-field, the rational model making format/parse exact). -/
theorem log_replay_round_trip (ts : ℚ) (ds : List DerivedMetrics) :
    (∀ d : DerivedMetrics,
      tickMetrics (readRow (logRow ts d.toList)) = d.toList) ∧
    (runTicks
        (startReplay (some (ds.map fun d => readRow (logRow ts d.toList)))
          idleReplayer).1
        (ds.map fun d => readRow (logRow ts d.toList)).length).2 =
      ds.map (·.toList) := by
  constructor
  · intro d; rfl
  · rw [runTicks_emits _ _ rfl]
    simp only [startReplay, List.drop_zero, List.take_length, List.map_map]
    have : tickMetrics ∘ (fun d : DerivedMetrics => readRow (logRow ts d.toList)) =
        (·.toList) := by
      funext d; rfl
    simp [this, List.take_of_length_le]

/-- C7 counterexample: the record `ghost_step` delivers for a fully
populated row is a ten-entry keyed mapping: its value sequence is not the
eleven-value `_tick` sequence and its key list is not the LogRecord field
order minus timestamp. -/
theorem ghost_emission_not_flat_cex :
    (ghostMetrics sampleRow).map Prod.snd ≠ tickMetrics sampleRow ∧
    (ghostMetrics sampleRow).length = 10 ∧
    (ghostMetrics sampleRow).map Prod.fst ≠ logHeaders.drop 1 := by
  refine ⟨?_, rfl, ?_⟩ <;> decide

/-- C7 amended: live records and `_tick` replay records are flat ordered
numeric sequences matching the LogRecord field order minus timestamp (11
values); ghost-replay emissions are keyed mappings of only the first ten
fields, omitting intake temperature. -/
theorem sink_record_shape_amended :
    (∀ r : Row, tickMetrics r =
      (logHeaders.drop 1).map fun c => rowGet r c (colDefault c)) ∧
    (∀ (std : List ℚ → ℚ) (st : Brain) (c : Conn) (now : ℚ),
      c.connected = true → c.frame.intake_temp = none →
      (processData std st (some c) now).map (fun p => p.2.length) = some 11) ∧
    (∀ r : Row, (ghostMetrics r).map Prod.fst = (logHeaders.drop 1).take 10 ∧
      (ghostMetrics r).length = 10) := by
  refine ⟨fun r => rfl, ?_, fun r => ⟨rfl, rfl⟩⟩
  intro std st c now hc hi
  simp [processData, hc, hi]

/-- C8: over any run of completed calls, the trim window holds exactly the
last 40 appended fuel-trim samples (so never more than 40, and exactly 40
once more than 40 were appended); each call's emitted stability is the
supplied standard-deviation routine applied to the updated window when it
has more than five entries and 0 otherwise; and the embedded population
variance — whose square root that routine computes — satisfies the
textbook identity. -/
theorem trim_window_last_forty (std : List ℚ → ℚ) (disp : ℚ)
    (inps : List (RawFrame × ℚ)) (h : ∀ p ∈ inps, p.1.intake_temp = none) :
    (runFrames std disp inps).trim_window =
      lastN 40 (inps.map fun p => p.1.fuel_trim.getD 0) ∧
    (runFrames std disp inps).trim_window.length ≤ 40 ∧
    (40 < inps.length → (runFrames std disp inps).trim_window.length = 40) ∧
    (∀ (st : Brain) (c : Conn) (now : ℚ), c.connected = true →
      c.frame.intake_temp = none →
      (processData std st (some c) now).map (fun p => p.2.getD 9 0) =
        some (if 5 < (pushTrim st.trim_window (c.frame.fuel_trim.getD 0)).length
          then std (pushTrim st.trim_window (c.frame.fuel_trim.getD 0))
          else 0)) ∧
    (∀ w : List ℚ,
      popVar w = (w.map fun x => x ^ 2).sum / w.length - listMean w ^ 2) := by
  have hrun : (runFrames std disp inps).trim_window =
      lastN 40 (inps.map fun p => p.1.fuel_trim.getD 0) := by
    unfold runFrames
    rw [runBrain_window std inps (initBrain disp) h]
    have := foldl_pushTrim (inps.map fun p => p.1.fuel_trim.getD 0)
      (initBrain disp).trim_window (by simp [initBrain])
    simpa [initBrain] using this
  refine ⟨hrun, ?_, ?_, ?_, fun w => popVar_alt w⟩
  · rw [hrun]
    unfold lastN
    simp only [List.length_drop]
    omega
  · intro hlen
    rw [hrun]
    unfold lastN
    simp only [List.length_drop, List.length_map]
    omega
  · intro st c now hc hi
    simp [processData, hc, hi]

/-- C8 witness: the statement at a one-frame run whose only frame has a
null intake reading. -/
theorem trim_window_last_forty_witness :
    (runFrames stdZero 2 [(blankFrame, 0)]).trim_window =
      lastN 40 ([((blankFrame : RawFrame), (0 : ℚ))].map
        fun p => p.1.fuel_trim.getD 0) ∧
    (runFrames stdZero 2 [(blankFrame, 0)]).trim_window.length ≤ 40 ∧
    (40 < ([((blankFrame : RawFrame), (0 : ℚ))]).length →
      (runFrames stdZero 2 [(blankFrame, 0)]).trim_window.length = 40) ∧
    (∀ (st : Brain) (c : Conn) (now : ℚ), c.connected = true →
      c.frame.intake_temp = none →
      (processData stdZero st (some c) now).map (fun p => p.2.getD 9 0) =
        some (if 5 < (pushTrim st.trim_window (c.frame.fuel_trim.getD 0)).length
          then stdZero (pushTrim st.trim_window (c.frame.fuel_trim.getD 0))
          else 0)) ∧
    (∀ w : List ℚ,
      popVar w = (w.map fun x => x ^ 2).sum / w.length - listMean w ^ 2) :=
  trim_window_last_forty stdZero 2 [(blankFrame, 0)] (by simp [blankFrame])

/-- C9: the fuel-map step is last-write-wins with a frame condition — when
the code's in-range guard holds, the cell at the digitize-derived pair of
indices is overwritten with the call's fuel rate and every other cell is
untouched; the chosen index is the largest bin edge `≤` the value (that
edge is `≤` the value and all later edges exceed it); when the guard
fails, the whole map is unchanged; and every completed `process_data` call
updates its fuel map by exactly this step. -/
theorem fuel_map_last_write (fm : Fin 21 → Fin 31 → ℚ) (load rpm fr : ℚ) :
    (fuelMapInRange load rpm →
      (∀ (li : Fin 21) (ri : Fin 31),
        ((li : ℤ) = loadIdx load ∧ (ri : ℤ) = rpmIdx rpm) →
          updateFuelMap fm load rpm fr li ri = fr) ∧
      (∀ (li : Fin 21) (ri : Fin 31),
        ¬((li : ℤ) = loadIdx load ∧ (ri : ℤ) = rpmIdx rpm) →
          updateFuelMap fm load rpm fr li ri = fm li ri) ∧
      (∃ (li : Fin 21) (ri : Fin 31),
        (li : ℤ) = loadIdx load ∧ (ri : ℤ) = rpmIdx rpm) ∧
      (loadBins.getD (loadIdx load).toNat 0 ≤ load ∧
        ∀ b ∈ loadBins.drop (digitize load loadBins), load < b) ∧
      (rpmBins.getD (rpmIdx rpm).toNat 0 ≤ rpm ∧
        ∀ b ∈ rpmBins.drop (digitize rpm rpmBins), rpm < b)) ∧
    (¬ fuelMapInRange load rpm → updateFuelMap fm load rpm fr = fm) ∧
    (∀ (std : List ℚ → ℚ) (st : Brain) (c : Conn) (now : ℚ),
      c.connected = true → c.frame.intake_temp = none →
      (processData std st (some c) now).map (fun p => p.1.fuel_map) =
        some (updateFuelMap st.fuel_map (c.frame.load.getD 0)
          (c.frame.rpm.getD 0) (fuelRate (c.frame.maf.getD 0)))) := by
  refine ⟨?_, ?_, ?_⟩
  · intro hin
    obtain ⟨hr0, hr31, hl0, hl21⟩ := hin
    have hld : 1 ≤ digitize load loadBins := by
      unfold loadIdx at hl0
      omega
    have hrd : 1 ≤ digitize rpm rpmBins := by
      unfold rpmIdx at hr0
      omega
    have hlt : (loadIdx load).toNat = digitize load loadBins - 1 := by
      unfold loadIdx
      omega
    have hrt : (rpmIdx rpm).toNat = digitize rpm rpmBins - 1 := by
      unfold rpmIdx
      omega
    refine ⟨?_, ?_, ?_, ?_, ?_⟩
    · intro li ri hcell
      unfold updateFuelMap
      rw [if_pos ⟨hr0, hr31, hl0, hl21⟩, if_pos hcell]
    · intro li ri hcell
      unfold updateFuelMap
      rw [if_pos ⟨hr0, hr31, hl0, hl21⟩, if_neg hcell]
    · refine ⟨⟨(loadIdx load).toNat, by omega⟩, ⟨(rpmIdx rpm).toNat, by omega⟩,
        ?_, ?_⟩ <;>
        simp [Int.toNat_of_nonneg, hl0, hr0]
    · rw [hlt]
      exact digitize_bucket load loadBins loadBins_sorted hld
    · rw [hrt]
      exact digitize_bucket rpm rpmBins rpmBins_sorted hrd
  · intro h
    unfold updateFuelMap
    rw [if_neg h]
  · intro std st c now hc hi
    simp [processData, hc, hi]

/-- C10: every completed connected call advances cumulative fuel by exactly
`fuel_rate * 0.1 / 3600` with `fuel_rate = maf * 3600 / (14.7 * 740)`;
across any worker run whose present maf readings are nonnegative the field
is monotonically non-decreasing; but a connected call whose intake reading
is present raises before the accumulation (src/main.py line 127 queries
through the never-assigned `self.connection`), leaving the state — and so
the cumulative fuel — unchanged. -/
theorem cumulative_fuel_monotone :
    (∀ (std : List ℚ → ℚ) (st : Brain) (c : Conn) (now : ℚ),
      c.connected = true → c.frame.intake_temp = none →
      (processData std st (some c) now).map (fun p => p.1.cum_fuel) =
        some (st.cum_fuel + fuelRate (c.frame.maf.getD 0) * 0.1 / 3600)) ∧
    (∀ (std : List ℚ → ℚ) (st : Brain) (inps : List (Option Conn × ℚ)),
      (∀ p ∈ inps, ∀ c, p.1 = some c → 0 ≤ c.frame.maf.getD 0) →
      st.cum_fuel ≤ (runBrain std st inps).cum_fuel) ∧
    processData stdZero (initBrain 2) (some ⟨true, intakeFrame⟩) 0 = none := by
  refine ⟨?_, ?_, ?_⟩
  · intro std st c now hc hi
    simp [processData, hc, hi]
  · intro std st inps h
    exact runBrain_cum_fuel_mono std inps st h
  · rfl

end Pruner
